import Mathlib

/-!
# e2json: argument resolution, process classification and diagnostics

A shallow embedding of `exec.go` (package `main` of `myback/e2json`).

* A Go `string` is a finite sequence of bytes: `GoString := List UInt8`.
  String literals of the source are written `str "..."`, their UTF-8 bytes.
* A Go index expression `x[i]` or slice expression `x[i:]` that is out of
  range raises a run-time panic.  Functions that index return an `Option`,
  where `none` stands for the panic.
* A Go `error` value is compared by identity (`err != errParser` in `main`),
  so every place that creates an error gets its own constructor of `GoError`.
* `time.ParseDuration` and the file-system probe behind `usedShell` belong to
  the Go standard library and the host; they are parameters of the model.
* `run` talks to the operating system.  The outcome of `cmd.Start()` and of
  `cmd.Wait()` is the input of the model (`Cmd`), and the model records which
  of the two calls were made.
-/

namespace E2Json

/-! ## Strings -/

/-- A Go string: a sequence of bytes. -/
abbrev GoString := List UInt8

/-- The bytes (UTF-8) of a string literal of the source. -/
def str (s : String) : GoString := s.data.flatMap String.utf8EncodeChar

namespace strings

/-- Go `strings.Contains(s, substr)`: `substr` occurs in `s` as a contiguous
run of bytes. -/
def Contains (s substr : GoString) : Bool :=
  s.tails.any (fun t => substr.isPrefixOf t)

/-- Go `strings.Split(s, sep)` for a separator `sep` of one byte (the only use
in `parseArgs` is `strings.Split(cmd[0], " ")`): the substrings of `s` between
the occurrences of the separator, in order.  Without an occurrence the result
is the one-element slice holding `s`. -/
def Split (s : GoString) (sep : UInt8) : List GoString :=
  match s with
  | [] => [[]]
  | c :: cs =>
    if c = sep then [] :: Split cs sep
    else
      match Split cs sep with
      | [] => [[c]]
      | p :: ps => (c :: p) :: ps

/-- Go `strings.Join(elems, sep)`. -/
def Join (elems : List GoString) (sep : GoString) : GoString :=
  match elems with
  | [] => []
  | [a] => a
  | a :: b :: rest => a ++ sep ++ Join (b :: rest) sep

end strings

/-! ## Constants and package-level variables (exec.go, lines 23-44) -/

/-- Go `time.Duration`: a count of nanoseconds. -/
abbrev Duration := Int

/-- Go `time.Second`. -/
def Second : Duration := 1000000000

/-- Source constant `commandNotFoundError`. -/
def commandNotFoundError : GoString := str "command not found"

/-- Source constant `defaultDuration = 3 * time.Second`. -/
def defaultDuration : Duration := 3 * Second

/-- Source constant `bashPipeFail`. -/
def bashPipeFail : GoString := str "set -o pipefail\n"

/-- Error values of the program, one constructor for each place where an
error is created. -/
inductive GoError where
  /-- The package-level variable `errParser = fmt.Errorf("parse error")`. -/
  | errParser
  /-- A value made by `fmt.Errorf` inside `parseArgs` (line 139), with its text. -/
  | errorf (text : GoString)
  /-- An error returned by `time.ParseDuration`, with its text. -/
  | parseDuration (text : GoString)
  deriving DecidableEq, Repr

/-- The method `Error()` of an error value. -/
def GoError.Error : GoError → GoString
  | .errParser => str "parse error"
  | .errorf text => text
  | .parseDuration text => text

/-- Source variable `usedShell`, initialised once from `os.Stat("/bin/bash")`;
`bashExists` says whether that call returned no error. -/
def usedShell (bashExists : Bool) : GoString :=
  if bashExists then str "/bin/bash" else str "/bin/sh"

/-! ## parseArgs (exec.go, lines 130-174) -/

/-- The three values returned by `parseArgs`.  `command = none` is the nil
slice and `err = none` is the nil error. -/
structure ParseResult where
  timeout : Duration
  command : Option (List GoString)
  err : Option GoError
  deriving DecidableEq, Repr

/-- Go slice expression `xs[n:]`; out of range when `n > len(xs)`. -/
def sliceFrom {α : Type} (xs : List α) (n : Nat) : Option (List α) :=
  if n ≤ xs.length then some (xs.drop n) else none

/-- Source function `parseArgs`.  `shell` is the value of the variable
`usedShell` and `ParseDuration` is `time.ParseDuration`, returning either the
text of its error or the duration.  The result `none` is a run-time panic. -/
def parseArgs (shell : GoString) (ParseDuration : GoString → Except GoString Duration)
    (args : List GoString) : Option ParseResult := do
  if args.length = 0 then
    return ⟨0, none, some GoError.errParser⟩
  let mut timeout := defaultDuration
  let mut cmd := args
  let cmd0 ← cmd[0]?
  let cmd00 ← cmd0[0]?
  if cmd00 = 45 then -- the byte of the minus sign
    if cmd0 ≠ str "--timeout" then
      let args0 ← args[0]?
      return ⟨0, none, some (GoError.errorf (str "unknown argument: " ++ args0))⟩
    if cmd.length = 1 then
      return ⟨0, none, some GoError.errParser⟩
    let cmd1 ← cmd[1]?
    match ParseDuration cmd1 with
    | .error e => return ⟨0, none, some (GoError.parseDuration e)⟩
    | .ok t => timeout := t
    cmd ← sliceFrom cmd 2
  match cmd.length with
  | 0 => return ⟨0, none, some GoError.errParser⟩
  | 1 =>
    let c0 ← cmd[0]?
    if strings.Contains c0 (str "\n") then
      -- multiline script
      let pre := bashPipeFail ++ c0
      cmd := [shell, str "-ce", pre]
    else
      -- one line script
      let script := strings.Split c0 32 -- the byte of the space
      if script.length > 1 then
        cmd := script
  | _ => pure ()
  return ⟨timeout, some cmd, none⟩

/-- A duration parser used to evaluate `parseArgs` on concrete inputs: it
knows the literals `1s` and `500ms` and rejects every other string with the
text that `time.ParseDuration` gives for an invalid duration. -/
def sampleParseDuration (s : GoString) : Except GoString Duration :=
  if s = str "1s" then .ok Second
  else if s = str "500ms" then .ok 500000000
  else .error (str "time: invalid duration " ++ s)


/-- The command vector that the `switch` of `parseArgs` (lines 155-171)
leaves in `cmd` when the candidate command has at least one token. -/
def switchCommand (shell : GoString) (cmd : List GoString) : List GoString :=
  match cmd with
  | [c0] =>
    if strings.Contains c0 (str "\n") then [shell, str "-ce", bashPipeFail ++ c0]
    else if (strings.Split c0 32).length > 1 then strings.Split c0 32
    else cmd
  | _ => cmd

/-! ## run (exec.go, lines 95-128) -/

/-- Source type `Output`. -/
structure Output where
  Stdout : GoString
  Stderr : GoString
  Rs : Int
  deriving DecidableEq, Repr

/-- A non-nil error returned by `cmd.Wait()`. -/
inductive WaitError where
  /-- An `*exec.ExitError`: the value of its method `ExitCode()`, its field
  `Stderr` and the text of its method `Error()`. -/
  | exitError (ExitCode : Int) (Stderr : GoString) (text : GoString)
  /-- Any error of another type, with the text of its method `Error()`. -/
  | other (text : GoString)
  deriving DecidableEq, Repr

/-- An `*exec.Cmd` together with what the operating system does with it. -/
structure Cmd where
  /-- Field `cmd.Path`. -/
  Path : GoString
  /-- The text of the error returned by `cmd.Start()`; `none` when it is nil. -/
  startErr : Option GoString
  /-- The error returned by `cmd.Wait()`; `none` when it is nil. -/
  waitErr : Option WaitError
  /-- The content of the buffer `stdout` when `cmd.Wait()` returns. -/
  buffered : GoString
  deriving DecidableEq, Repr

/-- The calls that `run` makes on the command. -/
inductive Call where
  | Start
  | Wait
  deriving DecidableEq, Repr

/-- Source function `run`: the returned `Output` and the calls made on
`cmd`, in order. -/
def run (cmd : Cmd) : Output × List Call :=
  let out : Output := ⟨[], [], 0⟩
  match cmd.startErr with
  | some err =>
    let out :=
      if strings.Contains err (str "not found") then
        { out with Stderr := commandNotFoundError ++ str ": " ++ cmd.Path }
      else
        { out with Stderr := err }
    let out := { out with Rs := -2 }
    (out, [Call.Start])
  | none =>
    match cmd.waitErr with
    | some (WaitError.exitError code stderr _) =>
      let out := { out with Rs := code, Stderr := stderr }
      let out := { out with Stdout := cmd.buffered }
      (out, [Call.Start, Call.Wait])
    | some (WaitError.other text) =>
      let out := { out with Rs := -3, Stderr := text }
      (out, [Call.Start, Call.Wait])
    | none =>
      let out := { out with Stdout := cmd.buffered }
      (out, [Call.Start, Call.Wait])

/-! ## Diagnostics assembled by main (exec.go, lines 75-88) -/

/-- The value that `main` stores in `out.Stderr` before encoding `out`.
`ctxErr` is the text of `ctx.Err()` (`none` when it is nil), `out` is the
result of `run` and `signalNotify` is the variable written by the signal
listener (empty when no signal was recorded). -/
def mainStderr (ctxErr : Option GoString) (out : Output) (signalNotify : GoString) :
    GoString :=
  let eOut : List GoString := []
  let eOut := match ctxErr with
    | some text => eOut ++ [text]
    | none => eOut
  let eOut := if out.Stderr.length > 0 then eOut ++ [out.Stderr] else eOut
  let eOut :=
    if signalNotify.length > 0 then eOut ++ [str "got signal: " ++ signalNotify] else eOut
  strings.Join eOut (str "; ")

/-- A command whose start fails because the executable is not in the search
path, as in the test `CommandNotFound`. -/
def sampleNotFound : Cmd :=
  ⟨str "command-not-found-bin",
    some (str "exec: \"command-not-found-bin\": executable file not found in $PATH"), none, []⟩

/-- A command that wrote `OK` and whose wait then failed with an error that is
not an exit error. -/
def sampleKilled : Cmd :=
  ⟨str "sleep", none, some (WaitError.other (str "signal: killed")), str "OK"⟩

/-- The script of the test `ParseScript`. -/
def sampleScript : GoString := str "false && echo -n \"OK\" || echo -n \"NO\""

/-! ## Lemmas on the string functions -/

theorem str_newline : str "\n" = [10] := by decide

theorem str_timeout_flag : str "--timeout" = 45 :: str "-timeout" := by decide

theorem Contains_byte_iff (s : GoString) (c : UInt8) :
    strings.Contains s [c] = true ↔ c ∈ s := by
  induction s with
  | nil => simp [strings.Contains, List.isPrefixOf]
  | cons a t ih =>
    simp only [strings.Contains, List.tails, List.any_cons] at ih ⊢
    simp only [Bool.or_eq_true, ih, List.mem_cons]
    simp [List.isPrefixOf]

theorem Contains_newline_iff (s : GoString) :
    strings.Contains s (str "\n") = true ↔ 10 ∈ s := by
  rw [str_newline, Contains_byte_iff]

theorem Split_ne_nil (s : GoString) (sep : UInt8) : strings.Split s sep ≠ [] := by
  cases s with
  | nil => simp [strings.Split]
  | cons c cs =>
    unfold strings.Split
    split
    · simp
    · split <;> simp

theorem Split_length (s : GoString) (sep : UInt8) :
    (strings.Split s sep).length = s.count sep + 1 := by
  induction s with
  | nil => simp [strings.Split]
  | cons c cs ih =>
    unfold strings.Split
    by_cases h : c = sep
    · subst h
      simp [ih]
    · simp only [h, if_false]
      have hc : (c :: cs).count sep = cs.count sep := by
        simp [List.count_cons, h]
      rw [hc, ← ih]
      cases hs : strings.Split cs sep with
      | nil => exact absurd hs (Split_ne_nil cs sep)
      | cons p ps => simp

theorem Join_cons_cons (a b : GoString) (rest : List GoString) (sep : GoString) :
    strings.Join (a :: b :: rest) sep = a ++ sep ++ strings.Join (b :: rest) sep := by
  simp [strings.Join]

theorem Join_cons_of_ne_nil (a : GoString) (l : List GoString) (sep : GoString)
    (h : l ≠ []) : strings.Join (a :: l) sep = a ++ sep ++ strings.Join l sep := by
  cases l with
  | nil => exact absurd rfl h
  | cons b rest => exact Join_cons_cons a b rest sep

theorem Join_Split (s : GoString) (sep : UInt8) :
    strings.Join (strings.Split s sep) [sep] = s := by
  induction s with
  | nil => simp [strings.Split, strings.Join]
  | cons c cs ih =>
    unfold strings.Split
    by_cases h : c = sep
    · subst h
      simp only [if_true]
      rw [Join_cons_of_ne_nil _ _ _ (Split_ne_nil cs c), ih]
      simp
    · simp only [h, if_false]
      cases hs : strings.Split cs sep with
      | nil => exact absurd hs (Split_ne_nil cs sep)
      | cons p ps =>
        rw [hs] at ih
        cases ps with
        | nil =>
          simp only [strings.Join] at ih ⊢
          rw [ih]
        | cons q qs =>
          rw [Join_cons_cons] at ih ⊢
          rw [← ih]
          simp

theorem Split_of_not_mem (s : GoString) (sep : UInt8) (h : sep ∉ s) :
    strings.Split s sep = [s] := by
  induction s with
  | nil => simp [strings.Split]
  | cons c cs ih =>
    have hc : ¬ c = sep := fun e => h (by simp [e])
    have hcs : sep ∉ cs := fun m => h (List.mem_cons_of_mem _ m)
    unfold strings.Split
    simp [hc, ih hcs]

theorem not_mem_of_mem_Split (s : GoString) (sep : UInt8) :
    ∀ p ∈ strings.Split s sep, sep ∉ p := by
  induction s with
  | nil => simp [strings.Split]
  | cons c cs ih =>
    unfold strings.Split
    by_cases h : c = sep
    · subst h
      intro p hp
      simp only [if_true, List.mem_cons] at hp
      rcases hp with rfl | hp
      · simp
      · exact ih p hp
    · simp only [h, if_false]
      cases hs : strings.Split cs sep with
      | nil => exact absurd hs (Split_ne_nil cs sep)
      | cons q qs =>
        rw [hs] at ih
        intro p hp
        simp only [List.mem_cons] at hp
        rcases hp with rfl | hp
        · intro hm
          simp only [List.mem_cons] at hm
          rcases hm with e | hm
          · exact h e.symm
          · exact ih q (by simp) hm
        · exact ih p (by simp [hp])

theorem Split_of_length_le_one (s : GoString) (sep : UInt8)
    (h : ¬ (strings.Split s sep).length > 1) : strings.Split s sep = [s] := by
  apply Split_of_not_mem
  rw [Split_length] at h
  intro hm
  have := List.count_pos_iff.mpr hm
  omega

/-! ## Lemmas on parseArgs, one for each path through the function -/

theorem switchCommand_multiline (shell s : GoString) (h : 10 ∈ s) :
    switchCommand shell [s] = [shell, str "-ce", bashPipeFail ++ s] := by
  simp [switchCommand, (Contains_newline_iff s).mpr h]

theorem switchCommand_oneline (shell s : GoString) (h : 10 ∉ s) :
    switchCommand shell [s] = strings.Split s 32 := by
  have hc : ¬ strings.Contains s (str "\n") = true := fun c => h ((Contains_newline_iff s).mp c)
  by_cases hl : (strings.Split s 32).length > 1
  · simp [switchCommand, hc, hl]
  · simp [switchCommand, hc, hl, Split_of_length_le_one s 32 hl]

theorem switchCommand_many (shell a b : GoString) (rest : List GoString) :
    switchCommand shell (a :: b :: rest) = a :: b :: rest := by
  simp [switchCommand]

theorem parseArgs_nil (shell : GoString) (pd : GoString → Except GoString Duration) :
    parseArgs shell pd [] = some ⟨0, none, some GoError.errParser⟩ := by
  simp [parseArgs]

theorem parseArgs_empty_token (shell : GoString) (pd : GoString → Except GoString Duration)
    (rest : List GoString) : parseArgs shell pd ([] :: rest) = none := by
  simp [parseArgs]

theorem parseArgs_plain (shell : GoString) (pd : GoString → Except GoString Duration)
    (b : UInt8) (bs : GoString) (rest : List GoString) (hb : b ≠ 45) :
    parseArgs shell pd ((b :: bs) :: rest)
      = some ⟨defaultDuration, some (switchCommand shell ((b :: bs) :: rest)), none⟩ := by
  cases rest with
  | nil =>
    by_cases hc : strings.Contains (b :: bs) (str "\n") = true
    · simp [parseArgs, switchCommand, hb, hc]
    · by_cases hl : (strings.Split (b :: bs) 32).length > 1
      · simp [parseArgs, switchCommand, hb, hc, hl]
      · simp [parseArgs, switchCommand, hb, hc, hl]
  | cons r rs => simp [parseArgs, switchCommand, hb]

theorem parseArgs_unknown (shell : GoString) (pd : GoString → Except GoString Duration)
    (bs : GoString) (rest : List GoString) (h : (45 :: bs) ≠ str "--timeout") :
    parseArgs shell pd ((45 :: bs) :: rest)
      = some ⟨0, none, some (GoError.errorf (str "unknown argument: " ++ (45 :: bs)))⟩ := by
  simp [parseArgs, h]

theorem parseArgs_flag_alone (shell : GoString) (pd : GoString → Except GoString Duration) :
    parseArgs shell pd [str "--timeout"] = some ⟨0, none, some GoError.errParser⟩ := by
  simp [parseArgs, str_timeout_flag]

theorem parseArgs_flag_rejected (shell : GoString) (pd : GoString → Except GoString Duration)
    (d e : GoString) (rest : List GoString) (hd : pd d = .error e) :
    parseArgs shell pd (str "--timeout" :: d :: rest)
      = some ⟨0, none, some (GoError.parseDuration e)⟩ := by
  simp [parseArgs, str_timeout_flag, hd]

theorem parseArgs_flag_no_command (shell : GoString) (pd : GoString → Except GoString Duration)
    (d : GoString) (t : Duration) (hd : pd d = .ok t) :
    parseArgs shell pd [str "--timeout", d] = some ⟨0, none, some GoError.errParser⟩ := by
  simp [parseArgs, str_timeout_flag, hd, sliceFrom]

theorem parseArgs_flag_command (shell : GoString) (pd : GoString → Except GoString Duration)
    (d : GoString) (t : Duration) (r : GoString) (rs : List GoString) (hd : pd d = .ok t) :
    parseArgs shell pd (str "--timeout" :: d :: r :: rs)
      = some ⟨t, some (switchCommand shell (r :: rs)), none⟩ := by
  cases rs with
  | nil =>
    by_cases hc : strings.Contains r (str "\n") = true
    · simp [parseArgs, switchCommand, str_timeout_flag, hd, sliceFrom, hc]
    · by_cases hl : (strings.Split r 32).length > 1
      · simp [parseArgs, switchCommand, str_timeout_flag, hd, sliceFrom, hc, hl]
      · simp [parseArgs, switchCommand, str_timeout_flag, hd, sliceFrom, hc, hl]
  | cons r2 rs2 => simp [parseArgs, switchCommand, str_timeout_flag, hd, sliceFrom]

/-! ## parseArgs: a single token -/

/-- C1, as stated, fails: for the one-token argument list holding the two-line
script `a`, newline, `b` (it contains a newline and does not begin with `-`)
`parseArgs` does not return the four-element command vector
`[usedShell, "-c", "-e", "set -o pipefail\n" + s]`. -/
theorem parseArgs_multiline_not_four_elements :
    (10 : UInt8) ∈ str "a\nb" ∧ (str "a\nb").head? ≠ some 45 ∧
    parseArgs (usedShell true) sampleParseDuration [str "a\nb"]
      ≠ some ⟨defaultDuration,
          some [usedShell true, str "-c", str "-e", str "set -o pipefail\n" ++ str "a\nb"],
          none⟩ := by
  decide

/-- C1, amended: for every one-token argument list `[s]` where `s` contains a
newline and does not begin with `-`, `parseArgs` succeeds with the default
timeout, which is 3 seconds, and returns exactly the three-element command
vector `[usedShell, "-ce", "set -o pipefail\n" + s]`. -/
theorem parseArgs_multiline (shell : GoString) (pd : GoString → Except GoString Duration)
    (s : GoString) (hnl : 10 ∈ s) (hdash : s.head? ≠ some 45) :
    parseArgs shell pd [s]
        = some ⟨defaultDuration, some [shell, str "-ce", str "set -o pipefail\n" ++ s], none⟩ ∧
      defaultDuration = 3 * 1000000000 := by
  refine ⟨?_, by decide⟩
  cases s with
  | nil => simp at hnl
  | cons b bs =>
    have hb : b ≠ 45 := by simpa using hdash
    rw [parseArgs_plain shell pd b bs [] hb, switchCommand_multiline shell (b :: bs) hnl]
    rfl

/-- The amended C1 at the two-line script `a`, newline, `b` with `/bin/bash`
present. -/
theorem parseArgs_multiline_witness :
    ((10 : UInt8) ∈ str "a\nb" ∧ (str "a\nb").head? ≠ some 45) ∧
    (parseArgs (usedShell true) sampleParseDuration [str "a\nb"]
        = some ⟨defaultDuration,
            some [usedShell true, str "-ce", str "set -o pipefail\n" ++ str "a\nb"], none⟩ ∧
      defaultDuration = 3 * 1000000000) :=
  ⟨by decide,
    parseArgs_multiline (usedShell true) sampleParseDuration (str "a\nb") (by decide) (by decide)⟩

/-- C2: for every one-token argument list `[s]` where `s` is non-empty, does
not begin with `-` and contains no newline, `parseArgs` succeeds with the
default timeout (3 seconds) and returns `s` split at every space: joining the
pieces with single spaces gives back `s`, no piece contains a space, the
number of pieces is one more than the number of spaces in `s`, and when `s`
contains no space the command vector is `[s]`. -/
theorem parseArgs_oneline (shell : GoString) (pd : GoString → Except GoString Duration)
    (s : GoString) (hne : s ≠ []) (hdash : s.head? ≠ some 45) (hnl : 10 ∉ s) :
    parseArgs shell pd [s] = some ⟨defaultDuration, some (strings.Split s 32), none⟩ ∧
      defaultDuration = 3 * 1000000000 ∧
      strings.Join (strings.Split s 32) (str " ") = s ∧
      (∀ p ∈ strings.Split s 32, 32 ∉ p) ∧
      (strings.Split s 32).length = s.count 32 + 1 ∧
      (32 ∉ s → parseArgs shell pd [s] = some ⟨defaultDuration, some [s], none⟩) := by
  have hres : parseArgs shell pd [s]
      = some ⟨defaultDuration, some (strings.Split s 32), none⟩ := by
    cases s with
    | nil => exact absurd rfl hne
    | cons b bs =>
      have hb : b ≠ 45 := by simpa using hdash
      rw [parseArgs_plain shell pd b bs [] hb, switchCommand_oneline shell (b :: bs) hnl]
  have hsp : str " " = [32] := by decide
  refine ⟨hres, by decide, ?_, not_mem_of_mem_Split s 32, Split_length s 32, ?_⟩
  · rw [hsp]; exact Join_Split s 32
  · intro h
    rw [hres, Split_of_not_mem s 32 h]

/-- C2 at the script of the test `ParseScript`, which has eight spaces. -/
theorem parseArgs_oneline_witness :
    (sampleScript ≠ [] ∧
      (sampleScript).head? ≠ some 45 ∧
      (10 : UInt8) ∉ sampleScript) ∧
    (parseArgs (usedShell true) sampleParseDuration [sampleScript]
        = some ⟨defaultDuration,
            some (strings.Split (sampleScript) 32), none⟩ ∧
      defaultDuration = 3 * 1000000000 ∧
      strings.Join (strings.Split (sampleScript) 32) (str " ")
        = sampleScript ∧
      (∀ p ∈ strings.Split (sampleScript) 32, 32 ∉ p) ∧
      (strings.Split (sampleScript) 32).length
        = (sampleScript).count 32 + 1 ∧
      (32 ∉ sampleScript →
        parseArgs (usedShell true) sampleParseDuration
            [sampleScript]
          = some ⟨defaultDuration, some [sampleScript], none⟩)) :=
  ⟨by decide,
    parseArgs_oneline (usedShell true) sampleParseDuration
      (sampleScript) (by decide) (by decide) (by decide)⟩

/-- The test `ParseScript`: the script is split into its nine tokens. -/
theorem parseArgs_ParseScript :
    parseArgs (usedShell true) sampleParseDuration [sampleScript]
      = some ⟨defaultDuration,
          some [str "false", str "&&", str "echo", str "-n", str "\"OK\"", str "||", str "echo",
            str "-n", str "\"NO\""], none⟩ := by
  decide

/-! ## parseArgs: the timeout flag -/

/-- C3: for every duration string `d` and every non-empty token list `rest`:
when the duration parser accepts `d` with value `t`, `parseArgs` on
`["--timeout", d] ++ rest` succeeds with timeout `t` and with the command
vector built from `rest` alone, whatever the first byte of `rest[0]` is (a
single token with a newline is wrapped for the shell, a single token without a
newline is split at its spaces, two or more tokens are kept as they are); when
the parser rejects `d` with error text `e`, `parseArgs` fails with that error,
which is a value different from `errParser`. -/
theorem parseArgs_timeout_flag (shell : GoString) (pd : GoString → Except GoString Duration)
    (d : GoString) (rest : List GoString) (hrest : rest ≠ []) :
    (∀ t, pd d = .ok t →
      (∀ s, rest = [s] → 10 ∈ s →
        parseArgs shell pd ([str "--timeout", d] ++ rest)
          = some ⟨t, some [shell, str "-ce", str "set -o pipefail\n" ++ s], none⟩) ∧
      (∀ s, rest = [s] → 10 ∉ s →
        parseArgs shell pd ([str "--timeout", d] ++ rest)
          = some ⟨t, some (strings.Split s 32), none⟩) ∧
      (2 ≤ rest.length →
        parseArgs shell pd ([str "--timeout", d] ++ rest) = some ⟨t, some rest, none⟩)) ∧
    (∀ e, pd d = .error e →
      parseArgs shell pd ([str "--timeout", d] ++ rest)
          = some ⟨0, none, some (GoError.parseDuration e)⟩ ∧
        GoError.parseDuration e ≠ GoError.errParser ∧
        (GoError.parseDuration e).Error = e) := by
  constructor
  · intro t ht
    refine ⟨?_, ?_, ?_⟩
    · intro s hs hnl
      subst hs
      show parseArgs shell pd (str "--timeout" :: d :: s :: []) = _
      rw [parseArgs_flag_command shell pd d t s [] ht, switchCommand_multiline shell s hnl]
      rfl
    · intro s hs hnl
      subst hs
      show parseArgs shell pd (str "--timeout" :: d :: s :: []) = _
      rw [parseArgs_flag_command shell pd d t s [] ht, switchCommand_oneline shell s hnl]
    · intro h2
      match rest, h2 with
      | a :: b :: rs, _ =>
        show parseArgs shell pd (str "--timeout" :: d :: a :: b :: rs) = _
        rw [parseArgs_flag_command shell pd d t a (b :: rs) ht, switchCommand_many]
  · intro e he
    refine ⟨?_, by simp, rfl⟩
    show parseArgs shell pd (str "--timeout" :: d :: rest) = _
    exact parseArgs_flag_rejected shell pd d e rest he

/-- C3 at the duration `1s` followed by the single token `-n` (a token that
begins with `-` and is nevertheless taken as the command). -/
theorem parseArgs_timeout_flag_witness :
    [str "-n"] ≠ [] ∧
    parseArgs (usedShell true) sampleParseDuration ([str "--timeout", str "1s"] ++ [str "-n"])
      = some ⟨Second, some [str "-n"], none⟩ :=
  ⟨by decide,
    by
      have h := ((parseArgs_timeout_flag (usedShell true) sampleParseDuration (str "1s")
        [str "-n"] (by decide)).1 Second rfl).2.1 (str "-n") rfl (by decide)
      rw [h]
      decide⟩

/-- The tests `ParseArgumentsWithTimeout`, `ParseArgumentsWithoutTimeoutValue2`
and `ParseArgumentsWithInvalidTimeoutValue`, with a duration parser that
accepts `1s` and rejects `true` and `1z`. -/
theorem parseArgs_timeout_tests :
    parseArgs (usedShell true) sampleParseDuration [str "--timeout", str "1s", str "true"]
        = some ⟨Second, some [str "true"], none⟩ ∧
      parseArgs (usedShell true) sampleParseDuration [str "--timeout", str "true"]
        = some ⟨0, none, some (GoError.parseDuration (str "time: invalid duration true"))⟩ ∧
      parseArgs (usedShell true) sampleParseDuration [str "--timeout", str "1z", str "true"]
        = some ⟨0, none, some (GoError.parseDuration (str "time: invalid duration 1z"))⟩ := by
  decide

/-! ## parseArgs: errors -/

/-- The returned error is `errParser` exactly in the three cases of C4. -/
theorem parseArgs_errParser_iff (shell : GoString) (pd : GoString → Except GoString Duration)
    (args : List GoString) :
    (∃ r, parseArgs shell pd args = some r ∧ r.err = some GoError.errParser) ↔
      (args = [] ∨ args = [str "--timeout"] ∨
        ∃ d t, args = [str "--timeout", d] ∧ pd d = .ok t) := by
  constructor
  · rintro ⟨r, hr, he⟩
    match args with
    | [] => exact Or.inl rfl
    | [] :: rest => rw [parseArgs_empty_token] at hr; cases hr
    | (b :: bs) :: rest =>
      by_cases hb : b = 45
      · subst hb
        by_cases hf : (45 :: bs) = str "--timeout"
        · rw [hf] at hr ⊢
          match rest with
          | [] => exact Or.inr (Or.inl rfl)
          | d :: rest2 =>
            cases hd : pd d with
            | error e =>
              rw [parseArgs_flag_rejected shell pd d e rest2 hd] at hr
              cases hr
              simp at he
            | ok t =>
              match rest2 with
              | [] => exact Or.inr (Or.inr ⟨d, t, rfl, hd⟩)
              | c :: cs =>
                rw [parseArgs_flag_command shell pd d t c cs hd] at hr
                cases hr
                simp at he
        · rw [parseArgs_unknown shell pd bs rest hf] at hr
          cases hr
          simp at he
      · rw [parseArgs_plain shell pd b bs rest hb] at hr
        cases hr
        simp at he
  · rintro (h | h | ⟨d, t, h, hd⟩)
    · subst h
      exact ⟨_, parseArgs_nil shell pd, rfl⟩
    · subst h
      exact ⟨_, parseArgs_flag_alone shell pd, rfl⟩
    · subst h
      exact ⟨_, parseArgs_flag_no_command shell pd d t hd, rfl⟩

/-- A call of `parseArgs` panics exactly when the argument list is non-empty
and its first token is the empty string. -/
theorem parseArgs_eq_none_iff (shell : GoString) (pd : GoString → Except GoString Duration)
    (args : List GoString) :
    parseArgs shell pd args = none ↔ args.head? = some [] := by
  match args with
  | [] => simp [parseArgs_nil]
  | [] :: rest => simp [parseArgs_empty_token]
  | (b :: bs) :: rest =>
    simp only [List.head?_cons, Option.some.injEq, reduceCtorEq, iff_false]
    by_cases hb : b = 45
    · subst hb
      by_cases hf : (45 :: bs) = str "--timeout"
      · rw [hf]
        match rest with
        | [] => simp [parseArgs_flag_alone]
        | d :: rest2 =>
          cases hd : pd d with
          | error e => simp [parseArgs_flag_rejected shell pd d e rest2 hd]
          | ok t =>
            match rest2 with
            | [] => simp [parseArgs_flag_no_command shell pd d t hd]
            | c :: cs => simp [parseArgs_flag_command shell pd d t c cs hd]
      · simp [parseArgs_unknown shell pd bs rest hf]
    · simp [parseArgs_plain shell pd b bs rest hb]

/-- C4: `parseArgs` returns `errParser` exactly when the argument list is
empty, is `["--timeout"]`, or is `["--timeout", d]` with `d` a valid duration.
The second sentence of the claim does not hold of the code: on the argument
list holding one empty token `parseArgs` returns neither a result nor an
error, it panics. -/
theorem parseArgs_errParser_cases :
    (∀ (shell : GoString) (pd : GoString → Except GoString Duration) (args : List GoString),
      (∃ r, parseArgs shell pd args = some r ∧ r.err = some GoError.errParser) ↔
        (args = [] ∨ args = [str "--timeout"] ∨
          ∃ d t, args = [str "--timeout", d] ∧ pd d = .ok t)) ∧
    ¬ (∃ r, parseArgs (usedShell true) sampleParseDuration [str ""] = some r) :=
  ⟨parseArgs_errParser_iff, by
    rintro ⟨r, hr⟩
    rw [show str "" = [] from rfl, parseArgs_empty_token] at hr
    cases hr⟩

/-- C5: for every argument list whose first token begins with `-` and is not
`--timeout`, whatever follows, `parseArgs` returns timeout 0, the nil command
vector and an error whose text is `unknown argument: ` followed by that token;
the error is a value different from `errParser`. -/
theorem parseArgs_unknown_argument (shell : GoString)
    (pd : GoString → Except GoString Duration) (tok : GoString) (rest : List GoString)
    (hdash : tok.head? = some 45) (hflag : tok ≠ str "--timeout") :
    ∃ err, parseArgs shell pd (tok :: rest) = some ⟨0, none, some err⟩ ∧
      err.Error = str "unknown argument: " ++ tok ∧ err ≠ GoError.errParser := by
  match tok, hdash with
  | b :: bs, h =>
    have hb : b = 45 := by simpa using h
    subst hb
    exact ⟨_, parseArgs_unknown shell pd bs rest hflag, rfl, by simp⟩

/-- C5 at the test `ParseArgumentsWithInvalidTimeoutArgumentName2`
(`-t 1s true`). -/
theorem parseArgs_unknown_argument_witness :
    ((str "-t").head? = some 45 ∧ str "-t" ≠ str "--timeout") ∧
    ∃ err, parseArgs (usedShell true) sampleParseDuration (str "-t" :: [str "1s", str "true"])
        = some ⟨0, none, some err⟩ ∧
      err.Error = str "unknown argument: " ++ str "-t" ∧ err ≠ GoError.errParser :=
  ⟨by decide,
    parseArgs_unknown_argument (usedShell true) sampleParseDuration (str "-t")
      [str "1s", str "true"] (by decide) (by decide)⟩

/-- C6: for every argument list of two or more tokens whose first token is
non-empty and does not begin with `-`, `parseArgs` succeeds with the default
timeout (3 seconds) and returns the argument list itself as the command
vector. -/
theorem parseArgs_many_tokens (shell : GoString) (pd : GoString → Except GoString Duration)
    (args : List GoString) (hlen : 2 ≤ args.length)
    (hne : args.head? ≠ some []) (hdash : ∀ tok, args.head? = some tok → tok.head? ≠ some 45) :
    parseArgs shell pd args = some ⟨defaultDuration, some args, none⟩ ∧
      defaultDuration = 3 * 1000000000 := by
  refine ⟨?_, by decide⟩
  match args, hlen, hne, hdash with
  | [] :: b :: rest, _, hne, _ => simp at hne
  | (c :: cs) :: b :: rest, _, _, hdash =>
    have hc : c ≠ 45 := by simpa using hdash (c :: cs) rfl
    rw [parseArgs_plain shell pd c cs (b :: rest) hc, switchCommand_many]

/-- C6 at two tokens of which the first holds a space and the second holds a
newline: neither is split or wrapped. -/
theorem parseArgs_many_tokens_witness :
    (2 ≤ [str "echo a", str "b\nc"].length ∧ [str "echo a", str "b\nc"].head? ≠ some [] ∧
      ∀ tok, [str "echo a", str "b\nc"].head? = some tok → tok.head? ≠ some 45) ∧
    (parseArgs (usedShell true) sampleParseDuration [str "echo a", str "b\nc"]
        = some ⟨defaultDuration, some [str "echo a", str "b\nc"], none⟩ ∧
      defaultDuration = 3 * 1000000000) :=
  ⟨by decide,
    parseArgs_many_tokens (usedShell true) sampleParseDuration [str "echo a", str "b\nc"]
      (by decide) (by decide) (by decide)⟩

/-- C10: `parseArgs` panics on the argument list holding one empty token, where
the index expression `cmd[0][0]` is out of range; it panics on an argument
list exactly when the first token is the empty string, and returns its three
values on every other argument list. -/
theorem parseArgs_panics_on_empty_token :
    parseArgs (usedShell true) sampleParseDuration [str ""] = none ∧
    (∀ (shell : GoString) (pd : GoString → Except GoString Duration) (args : List GoString),
      parseArgs shell pd args = none ↔ args.head? = some []) :=
  ⟨by decide, parseArgs_eq_none_iff⟩

/-! ## run -/

/-- C7: for every command whose start fails with error text `e`, `run` calls
`Start` and nothing else (it does not wait) and returns `Rs = -2` and an empty
`Stdout`; its `Stderr` is `command not found: ` followed by the path of the
command when `e` contains `not found`, and is `e` otherwise. -/
theorem run_start_failure (cmd : Cmd) (e : GoString) (hstart : cmd.startErr = some e) :
    (run cmd).2 = [Call.Start] ∧
      (run cmd).1.Rs = -2 ∧
      (run cmd).1.Stdout = [] ∧
      (strings.Contains e (str "not found") = true →
        (run cmd).1.Stderr = str "command not found: " ++ cmd.Path) ∧
      (strings.Contains e (str "not found") = false → (run cmd).1.Stderr = e) := by
  have hpre : commandNotFoundError ++ str ": " = str "command not found: " := by decide
  refine ⟨?_, ?_, ?_, ?_, ?_⟩
  · simp [run, hstart]
  · simp [run, hstart]
  · simp only [run, hstart]
    split <;> rfl
  · intro hc
    simp [run, hstart, hc, ← hpre]
  · intro hc
    simp [run, hstart, hc]

/-- C7 at the test `CommandNotFound`, with the error text that `Start` gives
for an executable that is not in the search path. -/
theorem run_start_failure_witness :
    sampleNotFound.startErr
        = some (str "exec: \"command-not-found-bin\": executable file not found in $PATH") ∧
    (run sampleNotFound).2 = [Call.Start] ∧
      (run sampleNotFound).1.Rs = -2 ∧
      (run sampleNotFound).1.Stdout = [] ∧
      (run sampleNotFound).1.Stderr = str "command not found: command-not-found-bin" := by
  have h := run_start_failure sampleNotFound
    (str "exec: \"command-not-found-bin\": executable file not found in $PATH") rfl
  exact ⟨rfl, h.1, h.2.1, h.2.2.1, (h.2.2.2.1 (by decide)).trans (by decide)⟩

/-- C8: for every command that starts, with `b` the content of the buffer: when
the wait succeeds `run` returns `Stdout = b`, an empty `Stderr` and `Rs = 0`;
when the wait fails with an exit error with exit code `c` and `Stderr` field
`e`, `run` returns `Stdout = b`, `Stderr = e` and `Rs = c`; when the wait
fails with another error with text `m`, `run` returns an empty `Stdout`,
`Stderr = m` and `Rs = -3`.  So `Stdout` is non-empty only when the wait
succeeded or failed with an exit error. -/
theorem run_started (cmd : Cmd) (hstart : cmd.startErr = none) :
    (cmd.waitErr = none → (run cmd).1 = ⟨cmd.buffered, [], 0⟩) ∧
      (∀ c e text, cmd.waitErr = some (WaitError.exitError c e text) →
        (run cmd).1 = ⟨cmd.buffered, e, c⟩) ∧
      (∀ m, cmd.waitErr = some (WaitError.other m) → (run cmd).1 = ⟨[], m, -3⟩) ∧
      ((run cmd).1.Stdout ≠ [] →
        cmd.waitErr = none ∨ ∃ c e text, cmd.waitErr = some (WaitError.exitError c e text)) ∧
      (run cmd).2 = [Call.Start, Call.Wait] := by
  refine ⟨?_, ?_, ?_, ?_, ?_⟩
  · intro hw
    simp [run, hstart, hw]
  · intro c e text hw
    simp [run, hstart, hw]
  · intro m hw
    simp [run, hstart, hw]
  · intro hout
    cases hw : cmd.waitErr with
    | none => exact Or.inl rfl
    | some w =>
      cases w with
      | exitError c e text => exact Or.inr ⟨c, e, text, rfl⟩
      | other m => simp [run, hstart, hw] at hout
  · cases hw : cmd.waitErr with
    | none => simp [run, hstart, hw]
    | some w => cases w <;> simp [run, hstart, hw]

/-- C8 at a command that wrote `OK` and was then ended with an error that is
not an exit error: the written bytes are not returned. -/
theorem run_started_witness :
    sampleKilled.startErr = none ∧
    (run sampleKilled).1 = ⟨[], str "signal: killed", -3⟩ :=
  ⟨rfl, (run_started sampleKilled rfl).2.2.1 (str "signal: killed") rfl⟩

/-- The tests `CommandFalse`, `CommandTrue` and `CommandLs`, where the exit
error of `false` has exit code 1 and an empty `Stderr` field. -/
theorem run_tests :
    (run ⟨str "false", none, some (WaitError.exitError 1 [] (str "exit status 1")), []⟩).1
        = ⟨[], [], 1⟩ ∧
      (run ⟨str "true", none, none, []⟩).1 = ⟨[], [], 0⟩ ∧
      (run ⟨str "ls", none, none, str "exec_test.go\n"⟩).1 = ⟨str "exec_test.go\n", [], 0⟩ := by
  decide

/-! ## The diagnostics of main -/

/-- C9: the `Stderr` that `main` emits is the join with `; ` of the
diagnostics that are present, in the order: the text of the context's error,
the `Stderr` of `run` when it is non-empty, `got signal: ` followed by the
recorded signal name when it is non-empty.  With all three present it is the
three texts with `; ` between them; with no context error and no recorded
signal it is the `Stderr` of `run` unchanged. -/
theorem mainStderr_spec (ctxErr : Option GoString) (out : Output) (signalNotify : GoString) :
    mainStderr ctxErr out signalNotify
        = strings.Join
            (ctxErr.toList ++ (if out.Stderr = [] then [] else [out.Stderr]) ++
              (if signalNotify = [] then [] else [str "got signal: " ++ signalNotify]))
            (str "; ") ∧
      mainStderr none out [] = out.Stderr ∧
      (∀ text, ctxErr = some text → out.Stderr ≠ [] → signalNotify ≠ [] →
        mainStderr ctxErr out signalNotify
          = text ++ str "; " ++ out.Stderr ++ str "; " ++ str "got signal: " ++ signalNotify) ∧
      (∀ text, ctxErr = some text → out.Stderr = [] → signalNotify ≠ [] →
        mainStderr ctxErr out signalNotify = text ++ str "; " ++ str "got signal: " ++ signalNotify) ∧
      (∀ text, ctxErr = some text → out.Stderr ≠ [] → signalNotify = [] →
        mainStderr ctxErr out signalNotify = text ++ str "; " ++ out.Stderr) ∧
      (ctxErr = none → out.Stderr ≠ [] → signalNotify ≠ [] →
        mainStderr ctxErr out signalNotify = out.Stderr ++ str "; " ++ str "got signal: " ++ signalNotify) := by
  refine ⟨?_, ?_, ?_, ?_, ?_, ?_⟩
  · cases ctxErr <;> by_cases ho : out.Stderr = [] <;> by_cases hs : signalNotify = [] <;>
      simp [mainStderr, ho, hs, List.length_pos]
  · by_cases ho : out.Stderr = []
    · simp [mainStderr, ho, strings.Join]
    · simp [mainStderr, ho, strings.Join, List.length_pos]
  · intro text hc ho hs
    subst hc
    simp [mainStderr, ho, hs, strings.Join, List.length_pos]
  · intro text hc ho hs
    subst hc
    simp [mainStderr, ho, hs, strings.Join, List.length_pos]
  · intro text hc ho hs
    subst hc
    simp [mainStderr, ho, hs, strings.Join, List.length_pos]
  · intro hc ho hs
    subst hc
    simp [mainStderr, ho, hs, strings.Join, List.length_pos]

/-- C9 at a run that was ended by the deadline after the signal `interrupt`
arrived, with `signal: killed` as the `Stderr` of `run`. -/
theorem mainStderr_spec_witness :
    mainStderr (some (str "context deadline exceeded")) ⟨[], str "signal: killed", -3⟩
        (str "interrupt")
      = str "context deadline exceeded; signal: killed; got signal: interrupt" := by
  rw [(mainStderr_spec (some (str "context deadline exceeded")) ⟨[], str "signal: killed", -3⟩
    (str "interrupt")).2.2.1 (str "context deadline exceeded") rfl (by decide) (by decide)]
  decide

end E2Json
